import Mathlib

/-!
Verification development for the bulwark-community-ruleset request-inspection
rules.  The four detectors (numeric-host, size-limit, regex, long-content-type)
are embedded shallowly: strings are lists of characters, configuration values
are a tagged union, floating-point scores are modelled as exact rationals, and
the Rust `regex` crate's `find` is modelled as existence of a match of a
transcribed regex AST at any position of the haystack.
-/

namespace Bulwark

/-- Regex abstract syntax, covering exactly the constructs used by the rules:
character classes, concatenation, alternation, `?`, `+` on a character class,
the anchors `^` and `$`, and the word boundary `\b`.  Counted repetitions
`{m,n}` are expanded structurally by `repN`/`optN` below. -/
inductive Regex where
  | eps : Regex
  | chr (p : Char → Bool) : Regex
  | cat (r1 r2 : Regex) : Regex
  | alt (r1 r2 : Regex) : Regex
  | opt (r : Regex) : Regex
  | plusChr (p : Char → Bool) : Regex
  | bos : Regex
  | eos : Regex
  | wb : Regex

/-- A word character for `\b` purposes: alphanumeric or underscore. -/
def isWordChar (c : Char) : Bool := c.isAlphanum || c = '_'

/-- Whether the adjacent character on one side of a position is a word
character; the absence of a character counts as non-word. -/
def headWord : List Char → Bool
  | [] => false
  | c :: _ => isWordChar c

/-- Backtracking helper for `+` on a character class: consume one or more
`p`-characters and try the continuation after each prefix. -/
def plusRun (p : Char → Bool) : List Char → List Char → (List Char → List Char → Bool) → Bool
  | _, [], _ => false
  | prev, c :: cs, k => p c && (k (c :: prev) cs || plusRun p (c :: prev) cs k)

/-- CPS backtracking matcher.  `mmatch r prev rest k = true` iff some prefix of
`rest` matches `r` (in the context where `prev` lists the already-consumed
characters in reverse, for `^` and `\b`) and the continuation `k` succeeds on
the remainder.  This decides existence of a match, which is all the rules use
(`Regex::find(...)` only ever checked against `None`). -/
def mmatch : Regex → List Char → List Char → (List Char → List Char → Bool) → Bool
  | .eps, prev, rest, k => k prev rest
  | .chr _, _, [], _ => false
  | .chr p, prev, c :: cs, k => p c && k (c :: prev) cs
  | .cat r1 r2, prev, rest, k => mmatch r1 prev rest (fun p r => mmatch r2 p r k)
  | .alt r1 r2, prev, rest, k => mmatch r1 prev rest k || mmatch r2 prev rest k
  | .opt r, prev, rest, k => mmatch r prev rest k || k prev rest
  | .plusChr p, prev, rest, k => plusRun p prev rest k
  | .bos, prev, rest, k => prev.isEmpty && k prev rest
  | .eos, prev, rest, k => rest.isEmpty && k prev rest
  | .wb, prev, rest, k => (headWord prev != headWord rest) && k prev rest

/-- Try to match `r` starting at every position of the haystack. -/
def findAux (r : Regex) : List Char → List Char → Bool
  | prev, rest =>
    mmatch r prev rest (fun _ _ => true) ||
      match rest with
      | [] => false
      | c :: cs => findAux r (c :: prev) cs

/-- Models `Regex::find(haystack).is_some()`: does `r` match anywhere in `s`? -/
def findMatch (r : Regex) (s : List Char) : Bool := findAux r [] s

/-- Expansion of `r{n,n}`: exactly `n` copies of `r`. -/
def repN : Nat → Regex → Regex
  | 0, _ => .eps
  | n + 1, r => .cat r (repN n r)

/-- Expansion of `r{0,n}`: up to `n` copies of `r`. -/
def optN : Nat → Regex → Regex
  | 0, _ => .eps
  | n + 1, r => .opt (.cat r (optN n r))

/-- Expansion of `r{lo,hi}`: between `lo` and `hi` copies of `r`. -/
def repRange (lo hi : Nat) (r : Regex) : Regex := .cat (repN lo r) (optN (hi - lo) r)

/-- Literal regex `lit s`: the literal string `s` as a regex. -/
def lit (s : List Char) : Regex := s.foldr (fun c acc => .cat (.chr (fun x => x = c)) acc) .eps

/-- The character class `[0-9]`. -/
def digitC (c : Char) : Bool := decide ('0' ≤ c) && decide (c ≤ '9')

/-- A character range class such as `[1-9]` or `[a-f]`. -/
def rangeC (lo hi : Char) (c : Char) : Bool := decide (lo ≤ c) && decide (c ≤ hi)

/-- A single literal character class. -/
def eqC (a c : Char) : Bool := c = a

/-- The character class `[0-9a-fA-F]`. -/
def hexC (c : Char) : Bool := digitC c || rangeC 'a' 'f' c || rangeC 'A' 'F' c

/-! ### The numeric-host rule's regexes, transcribed from
`src/rules/numeric-host/src/lib.rs`. -/

/-- The IPv4 octet group `25[0-5]|(2[0-4]|1\d|[1-9]|)\d` of `re_ipv4`. -/
def octetRe : Regex :=
  .alt (.cat (.chr (eqC '2')) (.cat (.chr (eqC '5')) (.chr (rangeC '0' '5'))))
       (.cat (.alt (.cat (.chr (eqC '2')) (.chr (rangeC '0' '4')))
                   (.alt (.cat (.chr (eqC '1')) (.chr digitC))
                         (.alt (.chr (rangeC '1' '9')) .eps)))
             (.chr digitC))

/-- One repetition `(octet)\.?\b` of `re_ipv4`. -/
def ipv4Group : Regex := .cat octetRe (.cat (.opt (.chr (eqC '.'))) .wb)

/-- The optional port suffix `:[0-9]{1,5}` shared by several of the regexes. -/
def portRe : Regex := .cat (.chr (eqC ':')) (repRange 1 5 (.chr digitC))

/-- Transcribes `re_ipv4 = ^((25[0-5]|(2[0-4]|1\d|[1-9]|)\d)\.?\b){4}(:[0-9]{1,5})?$`. -/
def reIpv4 : Regex := .cat .bos (.cat (repN 4 ipv4Group) (.cat (.opt portRe) .eos))

/-- Transcribes `[0-9a-fA-F]{1,4}` (an IPv6 hextet). -/
def h16 : Regex := repRange 1 4 (.chr hexC)

/-- Transcribes `([0-9a-fA-F]{1,4}:)`. -/
def h16c : Regex := .cat h16 (.chr (eqC ':'))

/-- Transcribes `(:[0-9a-fA-F]{1,4})`. -/
def ch16 : Regex := .cat (.chr (eqC ':')) h16

/-- The IPv4 octet variant `(25[0-5]|(2[0-4]|1{0,1}[0-9]){0,1}[0-9])` used
inside `re_ipv6`. -/
def v4octet6 : Regex :=
  .alt (.cat (.chr (eqC '2')) (.cat (.chr (eqC '5')) (.chr (rangeC '0' '5'))))
       (.cat (.opt (.alt (.cat (.chr (eqC '2')) (.chr (rangeC '0' '4')))
                         (.cat (.opt (.chr (eqC '1'))) (.chr digitC))))
             (.chr digitC))

/-- Transcribes `((octet)\.){3,3}(octet)` inside `re_ipv6`. -/
def v4dotted : Regex := .cat (repN 3 (.cat v4octet6 (.chr (eqC '.')))) v4octet6

/-- The character class `[0-9a-zA-Z]` of the IPv6 zone identifier. -/
def zoneAlnum (c : Char) : Bool := digitC c || rangeC 'a' 'z' c || rangeC 'A' 'Z' c

/-- Transcribes `re_ipv6`, transcribed alternative by alternative.  Note the source regex
is unanchored and only the `fe80` zone-identifier alternative contains the
closing bracket and port suffix. -/
def reIpv6 : Regex :=
  .cat (.chr (eqC '['))
    (.alt (.cat (repN 7 h16c) h16)
    (.alt (.cat (repRange 1 7 h16c) (.chr (eqC ':')))
    (.alt (.cat (repRange 1 6 h16c) (.cat (.chr (eqC ':')) h16))
    (.alt (.cat (repRange 1 5 h16c) (repRange 1 2 ch16))
    (.alt (.cat (repRange 1 4 h16c) (repRange 1 3 ch16))
    (.alt (.cat (repRange 1 3 h16c) (repRange 1 4 ch16))
    (.alt (.cat (repRange 1 2 h16c) (repRange 1 5 ch16))
    (.alt (.cat h16c (repRange 1 6 ch16))
    (.alt (.cat (.chr (eqC ':')) (.alt (repRange 1 7 ch16) (.chr (eqC ':'))))
    (.alt (.cat (lit "fe80:".data)
            (.cat (optN 4 (.cat (.chr (eqC ':')) (repRange 0 4 (.chr hexC))))
              (.cat (.chr (eqC '%'))
                (.cat (.plusChr zoneAlnum)
                  (.cat (.chr (eqC ']')) (.opt portRe))))))
    (.alt (.cat (lit "::".data)
            (.cat (.opt (.cat (lit "ffff".data)
                    (.cat (.opt (.cat (.chr (eqC ':')) (repRange 1 4 (.chr (eqC '0')))))
                      (.chr (eqC ':')))))
              v4dotted))
          (.cat (repRange 1 4 h16c) (.cat (.chr (eqC ':')) v4dotted)))))))))))))

/-- Transcribes `re_decimal = ^[0-9]{1,10}(:[0-9]{1,5})?$`. -/
def reDecimal : Regex :=
  .cat .bos (.cat (repRange 1 10 (.chr digitC)) (.cat (.opt portRe) .eos))

/-- Transcribes `re_binary = ^0[bB][0-1]{1,32}(:[0-9]{1,5})?$`. -/
def reBinary : Regex :=
  .cat .bos (.cat (.chr (eqC '0'))
    (.cat (.chr (fun c => eqC 'b' c || eqC 'B' c))
      (.cat (repRange 1 32 (.chr (rangeC '0' '1'))) (.cat (.opt portRe) .eos))))

/-- Transcribes `re_hex = ^0[xX][0-9a-fA-F]{1,8}(:[0-9]{1,5})?$`. -/
def reHex : Regex :=
  .cat .bos (.cat (.chr (eqC '0'))
    (.cat (.chr (fun c => eqC 'x' c || eqC 'X' c))
      (.cat (repRange 1 8 (.chr hexC)) (.cat (.opt portRe) .eos))))

/-- Transcribes `re_octal = ^0[0-7]{1,11}(:[0-9]{1,5})?$`. -/
def reOctal : Regex :=
  .cat .bos (.cat (.chr (eqC '0'))
    (.cat (repRange 1 11 (.chr (rangeC '0' '7'))) (.cat (.opt portRe) .eos)))

/-! ### The request model shared by all rules. -/

/-- The request body view (`BodyChunk` in the SDK). -/
structure BodyChunk where
  received : Bool
  end_of_stream : Bool
  size : Nat
  content : List Char
  deriving Repr

/-- An immutable request view: URI parts, headers and body.  Header values and
body bytes are modelled as character lists (every claim under consideration
concerns textual values). -/
structure Request where
  host : Option (List Char)
  path : List Char
  query : Option (List Char)
  headers : List (List Char × List Char)
  body : BodyChunk
  deriving Repr

/-- Case-insensitive header lookup, as the `http` crate's `HeaderMap::get`. -/
def getHeader (req : Request) (name : List Char) : Option (List Char) :=
  (req.headers.find? (fun kv => kv.1.map Char.toLower = name.map Char.toLower)).map (·.2)

/-- Models `check_numeric_host` from `src/rules/numeric-host/src/lib.rs`: a missing
`Host` header is an error; otherwise the host value is classified as numeric
iff any of the six regexes finds a match in it. -/
def check_numeric_host (req : Request) : Except String Bool :=
  match getHeader req "Host".data with
  | none => .error "Missing Host Header."
  | some host =>
      .ok (findMatch reIpv4 host || findMatch reIpv6 host || findMatch reDecimal host ||
           findMatch reBinary host || findMatch reHex host || findMatch reOctal host)

/-- The numeric-host rule's `on_request_decision` handler: the returned value
is the score passed to `set_restricted`, when any.  The handler only emits a
decision when the classifier returns `true`. -/
def numericHost_on_request_decision (req : Request) : Except String (Option ℚ) :=
  match check_numeric_host req with
  | .error e => .error e
  | .ok true => .ok (some 1)
  | .ok false => .ok none

/-- The numeric-host rule's `on_request_body_decision` handler (identical in
the source). -/
def numericHost_on_request_body_decision (req : Request) : Except String (Option ℚ) :=
  match check_numeric_host req with
  | .error e => .error e
  | .ok true => .ok (some 1)
  | .ok false => .ok none

/-! ### Configuration values (`serde_json::Value` as used by the SDK). -/

/-- A typed dynamic configuration value.  Numbers are modelled as exact
rationals; `asU64` succeeds exactly on non-negative integral numbers that fit
in 64 bits, mirroring `Value::as_u64`. -/
inductive Value where
  | str (s : List Char)
  | num (q : ℚ)
  | bool (b : Bool)
  | arr (xs : List Value)
  | obj (kvs : List (List Char × Value))
  | null
  deriving Repr

/-- Models `Value::as_u64`. -/
def asU64 : Value → Option Nat
  | .num q => if 0 ≤ q.num ∧ q.den = 1 ∧ q.num < 2 ^ 64 then some q.num.toNat else none
  | _ => none

/-- Models `Value::as_f64` (lossless in the rational model). -/
def asF64 : Value → Option ℚ
  | .num q => some q
  | _ => none

/-- Models `Value::as_str`. -/
def asStr : Value → Option (List Char)
  | .str s => some s
  | _ => none

/-- Models `Value::as_array`. -/
def asArray : Value → Option (List Value)
  | .arr xs => some xs
  | _ => none

/-- Models `get_config_value`: per-invocation configuration lookup. -/
def Config : Type := List Char → Option Value

/-! ### The size-limit rule, from `src/rules/size-limit/src/lib.rs`. -/

/-- A soft limit will be applied to requests above 15 MiB. -/
def DEFAULT_SOFT_LIMIT : Nat := 15 * 1048576

/-- Maximum acceptable request body length is 50 MiB. -/
def DEFAULT_HARD_LIMIT : Nat := 50 * 1048576

/-- This generally will not result in a restrict decision in isolation. -/
def DEFAULT_SOFT_WEIGHT : ℚ := 15 / 100

/-- Hitting the hard limit will give maximum block weight. -/
def DEFAULT_HARD_WEIGHT : ℚ := 1

/-- The size tier of a request body. -/
inductive BodyLimit where
  | Normal
  | SoftLimit
  | HardLimit
  deriving DecidableEq, Repr

/-- Models `body_limit`: checks if the request is above either the hard or soft
limit.  A configured limit that is absent or fails `as_u64` falls back to the
default. -/
def body_limit (soft_limit hard_limit : Option Value) (size : Nat) : BodyLimit :=
  let sl := (soft_limit.bind asU64).getD DEFAULT_SOFT_LIMIT
  let hl := (hard_limit.bind asU64).getD DEFAULT_HARD_LIMIT
  if size > hl then .HardLimit
  else if size > sl then .SoftLimit
  else .Normal

/-- Models `weight_limit`: determine the restrict weight based on the body limit. -/
def weight_limit (soft_weight hard_weight : Option Value) (limit : BodyLimit) : ℚ :=
  match limit with
  | .HardLimit => (hard_weight.bind asF64).getD DEFAULT_HARD_WEIGHT
  | .SoftLimit => (soft_weight.bind asF64).getD DEFAULT_SOFT_WEIGHT
  | .Normal => 0

/-- Models `str::parse::<u64>` on a header value: an optional leading plus sign, then
one or more decimal digits, within the 64-bit range. -/
def parseU64 (cs : List Char) : Option Nat :=
  let ds := match cs with
    | '+' :: rest => rest
    | _ => cs
  if ds.isEmpty then none
  else if ds.all digitC then
    let n := ds.foldl (fun acc c => acc * 10 + (c.toNat - 48)) 0
    if n < 2 ^ 64 then some n else none
  else none

/-- The parsed `Content-Length` header of a request, when present. -/
def contentLength (req : Request) : Option Nat :=
  (getHeader req "Content-Length".data).bind parseU64

/-- The size-limit rule's `on_request_decision`: a decision (the
`set_restricted` weight) is written only when `Content-Length` is present and
parseable, but then unconditionally, even at weight 0. -/
def sizeLimit_on_request_decision (cfg : Config) (req : Request) :
    Except String (Option ℚ) :=
  match contentLength req with
  | some n =>
      .ok (some (weight_limit (cfg "soft_weight".data) (cfg "hard_weight".data)
        (body_limit (cfg "soft_limit".data) (cfg "hard_limit".data) n)))
  | none => .ok none

/-- The size-limit rule's `on_request_body_decision`: always writes a
decision, based on the observed body size. -/
def sizeLimit_on_request_body_decision (cfg : Config) (req : Request) :
    Except String (Option ℚ) :=
  .ok (some (weight_limit (cfg "soft_weight".data) (cfg "hard_weight".data)
    (body_limit (cfg "soft_limit".data) (cfg "hard_limit".data) req.body.size)))

/-! ### The long-content-type rule, from
`src/rules/long-content-type/src/lib.rs`. -/

/-- The maximum length for the `Content-Type` header before we begin
considering it suspicious. -/
def MAX_LEN : ℤ := 120

/-- The maximum excess length for the `Content-Type` header before we cap the
score. -/
def MAX_EXCESS : ℤ := 150

/-- The maximum score for the `Content-Type` header at the capped length. -/
def MAX_SCORE : ℚ := 75 / 100

/-- The calculated scale factor to multiply the excess by. -/
def SCALE_FACTOR : ℚ := MAX_SCORE / (MAX_EXCESS : ℚ)

/-- Models `chars_above_max`: how many characters there are above the header maximum
length, if any. -/
def chars_above_max (content_type : List Char) : Nat :=
  (max ((content_type.length : ℤ) - MAX_LEN) 0).toNat

/-- Models `score_content_type`: the score for the `Content-Type` header based on its
excess length. -/
def score_content_type (content_type : List Char) : ℚ :=
  min ((chars_above_max content_type : ℚ) * SCALE_FACTOR) MAX_SCORE

/-- The output of a long-content-type invocation: the restricted decision
score, when one was set, and the appended tags. -/
structure HandlerOutput where
  decision : Option ℚ
  tags : List (List Char)
  deriving Repr

/-- Models `HandlerOutput::default()`: no decision, no tags. -/
def HandlerOutput.default : HandlerOutput := { decision := none, tags := [] }

/-- The long-content-type rule's `handle_request_decision`: when a
`Content-Type` header is present, a decision with its score is recorded (tags
only at positive score); otherwise the default output is returned. -/
def longContentType_handle_request_decision (req : Request) :
    Except String HandlerOutput :=
  match getHeader req "Content-Type".data with
  | some content_type =>
      let score := score_content_type content_type
      .ok { decision := some score,
            tags := if score > 0 then ["long-content-type".data] else [] }
  | none => .ok HandlerOutput.default

/-! ### The regex rule, from `src/rules/regex/src/lib.rs`. -/

/-- The sources contributed by one key of the object form of the `location`
configuration.  Unknown keys contribute nothing (the source additionally
prints a message and appends an "error" tag, which no claim concerns). -/
def sourcesForKey (req : Request) (key : List Char) (value : Value) :
    List (List Char) :=
  if key = "host".data then
    match req.host with
    | some h => [h]
    | none => []
  else if key = "path".data then [req.path]
  else if key = "query".data then
    match req.query with
    | some q => [q]
    | none => []
  else if key = "header".data then
    match asArray value with
    | some headers =>
        headers.foldl (fun acc header =>
          match asStr header with
          | some header_name =>
              match getHeader req header_name with
              | some header_value => acc ++ [header_value]
              | none => acc
          | none => acc) []
    | none => []
  else if key = "body".data then
    if req.body.received then [req.body.content] else []
  else []

/-- Models `get_sources`: resolve the `location` configuration (default `"all"`) into
the ordered list of byte sequences to match against. -/
def get_sources (value : Option Value) (req : Request) :
    Except String (List (List Char)) :=
  let value := value.getD (.str "all".data)
  match value with
  | .str keyword =>
      if keyword = "all".data then
        .ok ((match req.host with
              | some h => [h]
              | none => []) ++
             [req.path] ++
             (match req.query with
              | some q => [q]
              | none => []) ++
             req.headers.map (·.2) ++
             (if req.body.received then [req.body.content] else []))
      else .error "invalid location config"
  | .obj locations =>
      .ok (locations.foldl (fun acc kv => acc ++ sourcesForKey req kv.1 kv.2) [])
  | _ => .error "invalid location config"

/-- Models `get_patterns`: the `patterns` configuration must be present and an array
of strings. -/
def get_patterns (value : Option Value) : Except String (List (List Char)) :=
  match value with
  | none => .error "missing patterns config"
  | some value =>
      match asArray value with
      | none => .error "invalid patterns config"
      | some pattern_values =>
          pattern_values.foldr (fun v acc =>
            match asStr v with
            | none => .error "pattern was not string"
            | some pattern => acc.map (pattern :: ·)) (.ok [])

/-- The match-counting loop of `regex_handler`: for each source (every source
is textual in this model, so UTF-8 decoding always succeeds), the number of
distinct patterns with at least one match is added, guarded by the
`matched_any` check of the source. -/
def total_match_count (regex_set : List Regex) (sources : List (List Char)) : Nat :=
  sources.foldl (fun acc source =>
    let matched := regex_set.map (fun r => findMatch r source)
    if matched.any id then acc + matched.count true else acc) 0

/-- Models `regex_handler`, parameterized by `build`, the external
`RegexSetBuilder::new(patterns).build()` compilation step of the `regex`
crate.  The returned value is the score passed to `set_restricted`, when
any. -/
def regex_handler (build : List (List Char) → Except String (List Regex))
    (cfg : Config) (req : Request) : Except String (Option ℚ) :=
  match get_sources (cfg "location".data) req with
  | .error e => .error e
  | .ok sources =>
      match get_patterns (cfg "patterns".data) with
      | .error e => .error e
      | .ok patterns =>
          match build patterns with
          | .error e => .error e
          | .ok regex_set =>
              let match_count := total_match_count regex_set sources
              if match_count > 0 then
                match cfg "restrict".data with
                | some restrict_increment =>
                    match asF64 restrict_increment with
                    | some k => .ok (some (k * match_count))
                    | none => .error "restrict must be f64"
                | none =>
                    match cfg "accept".data with
                    | some accept_increment =>
                        match asF64 accept_increment with
                        | some k => .ok (some (k * match_count))
                        | none => .error "accept must be f64"
                    | none => .error "no accept or restrict increment specified"
              else
                .ok none

/-! ### Claim-side vocabulary and concrete inputs. -/

/-- Claim side: the decimal representation of an IPv4 octet — one to three
decimal digits denoting a value between 0 and 255, without leading zeros. -/
def octetChars : List Char → Bool
  | [c] => digitC c
  | [c1, c2] => rangeC '1' '9' c1 && digitC c2
  | [c1, c2, c3] =>
      (eqC '1' c1 && digitC c2 && digitC c3) ||
      (eqC '2' c1 && rangeC '0' '4' c2 && digitC c3) ||
      (eqC '2' c1 && eqC '5' c2 && rangeC '0' '5' c3)
  | _ => false

/-- Claim side: an optional `:port` suffix — either nothing, or a colon
followed by one to five decimal digits. -/
def portSuffix : List Char → Bool
  | [] => true
  | c :: ds =>
      eqC ':' c && decide (1 ≤ ds.length) && decide (ds.length ≤ 5) && ds.all digitC

/-- A compilation step mapping each pattern string to the regex matching it
literally; adequate for the metacharacter-free patterns used at concrete
inputs below. -/
def buildLit (patterns : List (List Char)) : Except String (List Regex) :=
  .ok (patterns.map lit)

/-- A request with no headers, no query and no body. -/
def emptyReq : Request :=
  { host := none, path := "/".data, query := none, headers := [],
    body := { received := false, end_of_stream := false, size := 0, content := [] } }

/-- A request whose only distinguishing feature is its `Host` header. -/
def hostOnlyReq (h : List Char) : Request :=
  { host := none, path := "/".data, query := none, headers := [("Host".data, h)],
    body := { received := false, end_of_stream := false, size := 0, content := [] } }

/-- A request whose only header is `Content-Length`. -/
def contentLengthReq (v : List Char) : Request :=
  { host := none, path := "/".data, query := none,
    headers := [("Content-Length".data, v)],
    body := { received := false, end_of_stream := false, size := 0, content := [] } }

/-- A request whose only distinguishing feature is its path. -/
def pathReq (p : List Char) : Request :=
  { host := none, path := p, query := none, headers := [],
    body := { received := false, end_of_stream := false, size := 0, content := [] } }

/-- A regex-rule configuration with patterns but neither a `restrict` nor an
`accept` increment. -/
def cfgNoIncrement : Config := fun key =>
  if key = "patterns".data then some (.arr [.str "zzz".data]) else none

/-- As `cfgNoIncrement`, with a pattern that matches the `/` path. -/
def cfgNoIncrementMatching : Config := fun key =>
  if key = "patterns".data then some (.arr [.str "/".data]) else none

/-- A regex-rule configuration with a `restrict` increment of `1/2` and a
non-matching pattern. -/
def cfgRestrictHalf : Config := fun key =>
  if key = "patterns".data then some (.arr [.str "zzz".data])
  else if key = "restrict".data then some (.num (1 / 2))
  else none

/-- A regex-rule configuration with a `restrict` increment of `3/5` and two
patterns both matching the path `ab`. -/
def cfgRestrictTwo : Config := fun key =>
  if key = "patterns".data then some (.arr [.str "a".data, .str "b".data])
  else if key = "restrict".data then some (.num (3 / 5))
  else none

/-! ## Helper lemmas -/

theorem asU64_natCast (n : Nat) (h : n < 2 ^ 64) : asU64 (.num (n : ℚ)) = some n := by
  simp only [asU64, Rat.num_natCast, Rat.den_natCast]
  rw [if_pos ⟨Int.natCast_nonneg n, trivial, by exact_mod_cast h⟩, Int.toNat_natCast]

theorem asF64_num (q : ℚ) : asF64 (.num q) = some q := rfl

theorem count_true_map {α : Type} (f : α → Bool) (l : List α) :
    (l.map f).count true = (l.filter f).length := by
  induction l with
  | nil => rfl
  | cons a t ih => cases h : f a <;> simp [List.count_cons, List.filter_cons, h, ih]

theorem any_id_false_count (l : List Bool) (h : l.any id = false) : l.count true = 0 := by
  induction l with
  | nil => rfl
  | cons b t ih =>
      cases b
      · simp only [List.any_cons] at h
        simpa [List.count_cons] using ih (by simpa using h)
      · simp at h

theorem foldl_add_map {α : Type} (g : α → Nat) (l : List α) :
    ∀ acc : Nat, l.foldl (fun a b => a + g b) acc = acc + (l.map g).sum := by
  induction l with
  | nil => intro acc; simp
  | cons x t ih =>
      intro acc
      rw [List.foldl_cons, ih]
      simp only [List.map_cons, List.sum_cons]
      omega

theorem total_match_count_eq_sum (rs : List Regex) (sources : List (List Char)) :
    total_match_count rs sources =
      (sources.map (fun s => (rs.filter (fun r => findMatch r s)).length)).sum := by
  have hf : (fun (acc : Nat) (source : List Char) =>
      let matched := rs.map (fun r => findMatch r source)
      if matched.any id then acc + matched.count true else acc) =
      fun acc source => acc + (rs.filter (fun r => findMatch r source)).length := by
    funext acc source
    show (if (rs.map (fun r => findMatch r source)).any id then
        acc + (rs.map (fun r => findMatch r source)).count true else acc) = _
    by_cases h : (rs.map (fun r => findMatch r source)).any id = true
    · rw [if_pos h, count_true_map]
    · rw [if_neg h, ← count_true_map, any_id_false_count _ (by simpa using h)]
      omega
  unfold total_match_count
  rw [hf, foldl_add_map]
  omega

/-! ## Claims -/

/-- C7: for every request lacking a `Host` header, the numeric-host rule's
classifier and both phase handlers fail with the fatal `Missing Host Header.`
error, so no decision is emitted and the failure is returned to the host. -/
theorem numericHost_missing_host_fatal (req : Request)
    (h : getHeader req "Host".data = none) :
    check_numeric_host req = .error "Missing Host Header." ∧
    numericHost_on_request_decision req = .error "Missing Host Header." ∧
    numericHost_on_request_body_decision req = .error "Missing Host Header." := by
  have hc : check_numeric_host req = .error "Missing Host Header." := by
    unfold check_numeric_host
    rw [h]
  refine ⟨hc, ?_, ?_⟩
  · unfold numericHost_on_request_decision
    rw [hc]
  · unfold numericHost_on_request_body_decision
    rw [hc]

theorem numericHost_missing_host_fatal_witness :
    getHeader emptyReq "Host".data = none ∧
    check_numeric_host emptyReq = .error "Missing Host Header." ∧
    numericHost_on_request_decision emptyReq = .error "Missing Host Header." ∧
    numericHost_on_request_body_decision emptyReq = .error "Missing Host Header." :=
  ⟨rfl, numericHost_missing_host_fatal emptyReq rfl⟩

/-- C9: for every request without a `Content-Type` header, the
long-content-type handler succeeds with the default output — no decision and
no tags. -/
theorem longContentType_absent_header_default (req : Request)
    (h : getHeader req "Content-Type".data = none) :
    longContentType_handle_request_decision req = .ok { decision := none, tags := [] } := by
  unfold longContentType_handle_request_decision
  rw [h]
  rfl

theorem longContentType_absent_header_default_witness :
    longContentType_handle_request_decision emptyReq = .ok { decision := none, tags := [] } :=
  longContentType_absent_header_default emptyReq rfl

/-- C2: for limits `soft < hard` (as configured 64-bit values), the tier is
`Normal` exactly on `S ≤ soft`, `SoftLimit` exactly on `soft < S ≤ hard` and
`HardLimit` exactly on `S > hard`, and the weight is `0`, `soft_weight` and
`hard_weight` respectively, with equality at a threshold belonging to the
lower tier. -/
theorem sizeLimit_tier_boundaries (soft hard : Nat) (sw hw : ℚ) (S : Nat)
    (hsh : soft < hard) (hhb : hard < 2 ^ 64) :
    (body_limit (some (.num (soft : ℚ))) (some (.num (hard : ℚ))) S = .Normal ↔ S ≤ soft) ∧
    (body_limit (some (.num (soft : ℚ))) (some (.num (hard : ℚ))) S = .SoftLimit ↔
      soft < S ∧ S ≤ hard) ∧
    (body_limit (some (.num (soft : ℚ))) (some (.num (hard : ℚ))) S = .HardLimit ↔ hard < S) ∧
    weight_limit (some (.num sw)) (some (.num hw))
        (body_limit (some (.num (soft : ℚ))) (some (.num (hard : ℚ))) S) =
      if S ≤ soft then 0 else if S ≤ hard then sw else hw := by
  have hsb : soft < 2 ^ 64 := lt_trans hsh hhb
  have hbl : body_limit (some (.num (soft : ℚ))) (some (.num (hard : ℚ))) S =
      if S > hard then .HardLimit else if S > soft then .SoftLimit else .Normal := by
    unfold body_limit
    rw [Option.some_bind, Option.some_bind, asU64_natCast soft hsb, asU64_natCast hard hhb]
    rfl
  rw [hbl]
  refine ⟨?_, ?_, ?_, ?_⟩ <;>
    split_ifs <;>
      simp [weight_limit, asF64_num] <;>
        omega

theorem sizeLimit_tier_boundaries_witness :
    (body_limit (some (.num ((5 : Nat) : ℚ))) (some (.num ((10 : Nat) : ℚ))) 6 = .SoftLimit ↔
      5 < 6 ∧ 6 ≤ 10) ∧
    weight_limit (some (.num (1 / 4))) (some (.num 1))
        (body_limit (some (.num ((5 : Nat) : ℚ))) (some (.num ((10 : Nat) : ℚ))) 6) =
      if 6 ≤ 5 then 0 else if 6 ≤ 10 then 1 / 4 else 1 :=
  ⟨(sizeLimit_tier_boundaries 5 10 (1 / 4) 1 6 (by omega) (by norm_num)).2.1,
   (sizeLimit_tier_boundaries 5 10 (1 / 4) 1 6 (by omega) (by norm_num)).2.2.2⟩

/-- C10: an absent or wrong-typed `soft_limit` / `hard_limit` /
`soft_weight` / `hard_weight` configuration value is silently replaced by its
built-in default (15 MiB, 50 MiB, 0.15, 1.0), and the size-limit handlers
never fail. -/
theorem sizeLimit_config_fallbacks :
    (∀ (osl ohl : Option Value) (S : Nat), osl.bind asU64 = none →
      body_limit osl ohl S = body_limit (some (.num (DEFAULT_SOFT_LIMIT : ℚ))) ohl S) ∧
    (∀ (osl ohl : Option Value) (S : Nat), ohl.bind asU64 = none →
      body_limit osl ohl S = body_limit osl (some (.num (DEFAULT_HARD_LIMIT : ℚ))) S) ∧
    (∀ (osw ohw : Option Value) (t : BodyLimit), osw.bind asF64 = none →
      weight_limit osw ohw t = weight_limit (some (.num DEFAULT_SOFT_WEIGHT)) ohw t) ∧
    (∀ (osw ohw : Option Value) (t : BodyLimit), ohw.bind asF64 = none →
      weight_limit osw ohw t = weight_limit osw (some (.num DEFAULT_HARD_WEIGHT)) t) ∧
    (∀ (cfg : Config) (req : Request),
      (∃ o, sizeLimit_on_request_decision cfg req = .ok o) ∧
      (∃ o, sizeLimit_on_request_body_decision cfg req = .ok o)) := by
  have hsl : asU64 (.num (DEFAULT_SOFT_LIMIT : ℚ)) = some DEFAULT_SOFT_LIMIT :=
    asU64_natCast _ (by norm_num [DEFAULT_SOFT_LIMIT])
  have hhl : asU64 (.num (DEFAULT_HARD_LIMIT : ℚ)) = some DEFAULT_HARD_LIMIT :=
    asU64_natCast _ (by norm_num [DEFAULT_HARD_LIMIT])
  refine ⟨?_, ?_, ?_, ?_, ?_⟩
  · intro osl ohl S h
    unfold body_limit
    rw [h, Option.some_bind, hsl]
    rfl
  · intro osl ohl S h
    unfold body_limit
    rw [h, Option.some_bind, hhl]
    rfl
  · intro osw ohw t h
    cases t <;> simp [weight_limit, h, asF64_num]
  · intro osw ohw t h
    cases t <;> simp [weight_limit, h, asF64_num]
  · intro cfg req
    constructor
    · unfold sizeLimit_on_request_decision
      cases contentLength req <;> exact ⟨_, rfl⟩
    · exact ⟨_, rfl⟩

theorem sizeLimit_config_fallbacks_witness :
    ((some (Value.str "x".data)).bind asU64 = none ∧
      body_limit (some (.str "x".data)) none 0 =
        body_limit (some (.num (DEFAULT_SOFT_LIMIT : ℚ))) none 0) ∧
    ((some (Value.bool true)).bind asF64 = none ∧
      weight_limit (some (.bool true)) none .SoftLimit =
        weight_limit (some (.num DEFAULT_SOFT_WEIGHT)) none .SoftLimit) ∧
    (∃ o, sizeLimit_on_request_decision (fun _ => some (.str "x".data)) emptyReq = .ok o) :=
  ⟨⟨rfl, sizeLimit_config_fallbacks.1 (some (.str "x".data)) none 0 rfl⟩,
   ⟨rfl, sizeLimit_config_fallbacks.2.2.1 (some (.bool true)) none .SoftLimit rfl⟩,
   (sizeLimit_config_fallbacks.2.2.2.2 (fun _ => some (.str "x".data)) emptyReq).1⟩

/-- C3: the regex detector's total measurement equals the sum over sources of
the number of distinct patterns with at least one match in that source (not
the total number of occurrences); in particular one pattern matching in two
distinct sources contributes 2. -/
theorem regex_total_is_sum_of_distinct (rs : List Regex) (sources : List (List Char)) :
    total_match_count rs sources =
      (sources.map (fun s => (rs.filter (fun r => findMatch r s)).length)).sum ∧
    ∀ (r : Regex) (s1 s2 : List Char), findMatch r s1 = true → findMatch r s2 = true →
      total_match_count [r] [s1, s2] = 2 := by
  refine ⟨total_match_count_eq_sum rs sources, ?_⟩
  intro r s1 s2 h1 h2
  rw [total_match_count_eq_sum]
  simp [List.filter_cons, h1, h2]

theorem regex_total_is_sum_of_distinct_witness :
    findMatch (lit "a".data) "a".data = true ∧
    total_match_count [lit "a".data] ["a".data, "a".data] = 2 :=
  ⟨rfl, (regex_total_is_sum_of_distinct [] []).2 (lit "a".data) "a".data "a".data rfl rfl⟩

/-- C6: with the default parameters (`max_len = 120`, `max_excess = 150`,
`max_score = 0.75`), the length-excess score of a `Content-Type` value of
length L equals `min(max(0, L - 120) * (0.75/150), 0.75)`: zero for L ≤ 120,
linear with slope 1/200 strictly between 120 and 270, and equal to the cap
0.75 from L = 270 on. -/
theorem longContentType_score_formula (ct : List Char) :
    score_content_type ct =
      min (((max ((ct.length : ℤ) - 120) 0 : ℤ) : ℚ) * (75 / 100 / 150)) (75 / 100) ∧
    (ct.length ≤ 120 → score_content_type ct = 0) ∧
    (120 ≤ ct.length → ct.length ≤ 270 →
      score_content_type ct = ((ct.length : ℚ) - 120) * (1 / 200)) ∧
    (270 ≤ ct.length → score_content_type ct = 75 / 100) := by
  have hmain : score_content_type ct =
      min (((max ((ct.length : ℤ) - 120) 0 : ℤ) : ℚ) * (75 / 100 / 150)) (75 / 100) := by
    unfold score_content_type chars_above_max SCALE_FACTOR MAX_SCORE MAX_EXCESS MAX_LEN
    rw [show (((max ((ct.length : ℤ) - 120) 0).toNat : ℕ) : ℚ) =
        ((max ((ct.length : ℤ) - 120) 0 : ℤ) : ℚ) by
      rw [← Int.cast_natCast, Int.toNat_of_nonneg (le_max_right _ 0)]]
    norm_num
  refine ⟨hmain, ?_, ?_, ?_⟩
  · intro hL
    rw [hmain, max_eq_right (by omega)]
    norm_num
  · intro hL1 hL2
    rw [hmain, max_eq_left (by omega)]
    have hcast : ((((ct.length : ℤ) - 120) : ℤ) : ℚ) = (ct.length : ℚ) - 120 := by push_cast; ring
    rw [hcast]
    have hb : ((ct.length : ℚ) - 120) * (75 / 100 / 150) ≤ 75 / 100 := by
      have h270 : (ct.length : ℚ) ≤ 270 := by exact_mod_cast hL2
      nlinarith
    rw [min_eq_left (by linarith [hb])]
    ring
  · intro hL
    rw [hmain, max_eq_left (by omega)]
    have hcast : ((((ct.length : ℤ) - 120) : ℤ) : ℚ) = (ct.length : ℚ) - 120 := by push_cast; ring
    rw [hcast]
    have h270 : (270 : ℚ) ≤ (ct.length : ℚ) := by exact_mod_cast hL
    rw [min_eq_right (by nlinarith)]

theorem longContentType_score_formula_witness :
    270 ≤ (List.replicate 720 'a').length ∧
    score_content_type (List.replicate 720 'a') = 75 / 100 :=
  ⟨by rw [List.length_replicate]; omega,
   (longContentType_score_formula (List.replicate 720 'a')).2.2.2
     (by rw [List.length_replicate]; omega)⟩

/-- C1 counterexample: the numeric-host detector does not write a decision
unconditionally — on a request whose host `www.example.com` is not numeric,
the request-phase invocation succeeds without emitting any decision. -/
theorem numericHost_no_decision_at_zero_score :
    check_numeric_host (hostOnlyReq "www.example.com".data) = .ok false ∧
    numericHost_on_request_decision (hostOnlyReq "www.example.com".data) = .ok none :=
  ⟨rfl, rfl⟩

/-- C1 amended: the size-limit detector writes a decision unconditionally —
even at weight 0 — in the body phase always, and in the headers phase exactly
when `Content-Length` is present and parseable; the numeric-host detector
writes a decision (score 1) only on a positive classification and none on a
negative one. -/
theorem decision_emission_policy :
    (∀ (cfg : Config) (req : Request),
      sizeLimit_on_request_body_decision cfg req =
        .ok (some (weight_limit (cfg "soft_weight".data) (cfg "hard_weight".data)
          (body_limit (cfg "soft_limit".data) (cfg "hard_limit".data) req.body.size)))) ∧
    (∀ (cfg : Config) (req : Request) (n : Nat), contentLength req = some n →
      sizeLimit_on_request_decision cfg req =
        .ok (some (weight_limit (cfg "soft_weight".data) (cfg "hard_weight".data)
          (body_limit (cfg "soft_limit".data) (cfg "hard_limit".data) n)))) ∧
    (∀ (cfg : Config) (req : Request), contentLength req = none →
      sizeLimit_on_request_decision cfg req = .ok none) ∧
    (∀ req : Request, check_numeric_host req = .ok true →
      numericHost_on_request_decision req = .ok (some 1)) ∧
    (∀ req : Request, check_numeric_host req = .ok false →
      numericHost_on_request_decision req = .ok none) := by
  refine ⟨fun cfg req => rfl, ?_, ?_, ?_, ?_⟩
  · intro cfg req n h
    unfold sizeLimit_on_request_decision
    rw [h]
  · intro cfg req h
    unfold sizeLimit_on_request_decision
    rw [h]
  · intro req h
    unfold numericHost_on_request_decision
    rw [h]
  · intro req h
    unfold numericHost_on_request_decision
    rw [h]

theorem decision_emission_policy_witness :
    contentLength (contentLengthReq "0".data) = some 0 ∧
    sizeLimit_on_request_decision (fun _ => none) (contentLengthReq "0".data) =
      .ok (some (weight_limit none none (body_limit none none 0))) ∧
    check_numeric_host (hostOnlyReq "127.0.0.1".data) = .ok true ∧
    numericHost_on_request_decision (hostOnlyReq "127.0.0.1".data) = .ok (some 1) :=
  ⟨rfl, decision_emission_policy.2.1 (fun _ => none) (contentLengthReq "0".data) 0 rfl,
   rfl, decision_emission_policy.2.2.2.1 (hostOnlyReq "127.0.0.1".data) rfl⟩

/-- C4 counterexample: a configuration supplying patterns but neither
`restrict` nor `accept` does not fail when no pattern matched — the invocation
succeeds with no decision, refuting "fails regardless of whether any pattern
matched". -/
theorem regex_no_increment_zero_matches_ok :
    cfgNoIncrement "restrict".data = none ∧
    cfgNoIncrement "accept".data = none ∧
    regex_handler buildLit cfgNoIncrement (pathReq "/".data) = .ok none :=
  ⟨rfl, rfl, rfl⟩

/-- C4 amended: with neither `restrict` nor `accept` configured (and sources,
patterns and the compiled set all resolving), the invocation fails with the
fatal configuration error exactly when at least one pattern matched; with zero
matches it succeeds without recording anything. -/
theorem regex_missing_increment_behavior
    (build : List (List Char) → Except String (List Regex)) (cfg : Config) (req : Request)
    (sources patterns : List (List Char)) (rs : List Regex)
    (hs : get_sources (cfg "location".data) req = .ok sources)
    (hp : get_patterns (cfg "patterns".data) = .ok patterns)
    (hb : build patterns = .ok rs)
    (hr : cfg "restrict".data = none) (ha : cfg "accept".data = none) :
    (0 < total_match_count rs sources →
      regex_handler build cfg req = .error "no accept or restrict increment specified") ∧
    (total_match_count rs sources = 0 →
      regex_handler build cfg req = .ok none) := by
  constructor
  · intro hn
    unfold regex_handler
    simp [hs, hp, hb, hr, ha, hn]
  · intro hn
    unfold regex_handler
    simp [hs, hp, hb, hn]

theorem regex_missing_increment_behavior_witness :
    regex_handler buildLit cfgNoIncrementMatching (pathReq "/".data) =
      .error "no accept or restrict increment specified" ∧
    0 < total_match_count [lit "/".data] ["/".data] :=
  ⟨(regex_missing_increment_behavior buildLit cfgNoIncrementMatching (pathReq "/".data)
      ["/".data] ["/".data] [lit "/".data] rfl rfl rfl rfl rfl).1 (by decide),
   by decide⟩

/-- C5 counterexample: with a `restrict` increment of 1/2 configured and zero
matches, the detector records no score at all, not the claimed clamped score
`k * 0 = 0`. -/
theorem regex_zero_matches_records_nothing :
    regex_handler buildLit cfgRestrictHalf (pathReq "/".data) = .ok none ∧
    regex_handler buildLit cfgRestrictHalf (pathReq "/".data) ≠ .ok (some 0) := by
  refine ⟨rfl, ?_⟩
  intro hcontra
  have h1 : regex_handler buildLit cfgRestrictHalf (pathReq "/".data) = .ok none := rfl
  rw [h1] at hcontra
  simp at hcontra

/-- C5 amended: with a configured increment `k`, the recorded score is `k * n`
with no clamping to [0,1] when `n > 0` (so it can exceed 1), and nothing is
recorded when `n = 0`. -/
theorem regex_score_unclamped
    (build : List (List Char) → Except String (List Regex)) (cfg : Config) (req : Request)
    (sources patterns : List (List Char)) (rs : List Regex) (k : ℚ)
    (hs : get_sources (cfg "location".data) req = .ok sources)
    (hp : get_patterns (cfg "patterns".data) = .ok patterns)
    (hb : build patterns = .ok rs) :
    (cfg "restrict".data = some (.num k) → 0 < total_match_count rs sources →
      regex_handler build cfg req = .ok (some (k * (total_match_count rs sources : ℚ)))) ∧
    (cfg "restrict".data = none → cfg "accept".data = some (.num k) →
      0 < total_match_count rs sources →
      regex_handler build cfg req = .ok (some (k * (total_match_count rs sources : ℚ)))) ∧
    (total_match_count rs sources = 0 → regex_handler build cfg req = .ok none) := by
  refine ⟨?_, ?_, ?_⟩
  · intro hk hn
    unfold regex_handler
    simp [hs, hp, hb, hk, hn, asF64_num]
  · intro hr hk hn
    unfold regex_handler
    simp [hs, hp, hb, hr, hk, hn, asF64_num]
  · intro hn
    unfold regex_handler
    simp [hs, hp, hb, hn]

theorem regex_score_unclamped_witness :
    regex_handler buildLit cfgRestrictTwo (pathReq "ab".data) =
      .ok (some ((3 / 5 : ℚ) *
        (total_match_count [lit "a".data, lit "b".data] ["ab".data] : ℚ))) ∧
    (3 / 5 : ℚ) * (total_match_count [lit "a".data, lit "b".data] ["ab".data] : ℚ) = 6 / 5 ∧
    ¬ (6 / 5 : ℚ) ≤ 1 :=
  ⟨(regex_score_unclamped buildLit cfgRestrictTwo (pathReq "ab".data)
      ["ab".data] ["a".data, "b".data] [lit "a".data, lit "b".data] (3 / 5)
      rfl rfl rfl).1 rfl (by decide),
   by norm_num [show total_match_count [lit "a".data, lit "b".data] ["ab".data] = 2 from rfl],
   by norm_num⟩

/-! ## Matcher introduction lemmas, used to settle the numeric-host claims. -/

theorem mmatch_cat_eq (r1 r2 : Regex) (prev rest : List Char)
    (k : List Char → List Char → Bool) :
    mmatch (.cat r1 r2) prev rest k = mmatch r1 prev rest (fun p r => mmatch r2 p r k) := rfl

theorem mmatch_alt_inl {r1 : Regex} (r2 : Regex) {prev rest : List Char}
    {k : List Char → List Char → Bool} (h : mmatch r1 prev rest k = true) :
    mmatch (.alt r1 r2) prev rest k = true := by
  show (mmatch r1 prev rest k || mmatch r2 prev rest k) = true
  rw [h, Bool.true_or]

theorem mmatch_alt_inr (r1 : Regex) {r2 : Regex} {prev rest : List Char}
    {k : List Char → List Char → Bool} (h : mmatch r2 prev rest k = true) :
    mmatch (.alt r1 r2) prev rest k = true := by
  show (mmatch r1 prev rest k || mmatch r2 prev rest k) = true
  rw [h, Bool.or_true]

theorem mmatch_eps {prev rest : List Char} {k : List Char → List Char → Bool}
    (h : k prev rest = true) : mmatch .eps prev rest k = true := h

theorem mmatch_chr {p : Char → Bool} {c : Char} {prev cs : List Char}
    {k : List Char → List Char → Bool} (hp : p c = true) (h : k (c :: prev) cs = true) :
    mmatch (.chr p) prev (c :: cs) k = true := by
  show (p c && k (c :: prev) cs) = true
  rw [hp, h]
  rfl

theorem mmatch_opt_take {r : Regex} {prev rest : List Char}
    {k : List Char → List Char → Bool} (h : mmatch r prev rest k = true) :
    mmatch (.opt r) prev rest k = true := by
  show (mmatch r prev rest k || k prev rest) = true
  rw [h, Bool.true_or]

theorem mmatch_opt_skip (r : Regex) {prev rest : List Char}
    {k : List Char → List Char → Bool} (h : k prev rest = true) :
    mmatch (.opt r) prev rest k = true := by
  show (mmatch r prev rest k || k prev rest) = true
  rw [h, Bool.or_true]

theorem mmatch_bos {prev rest : List Char} {k : List Char → List Char → Bool}
    (hp : prev = []) (h : k prev rest = true) : mmatch .bos prev rest k = true := by
  subst hp
  show (List.isEmpty [] && k [] rest) = true
  rw [h]
  rfl

theorem mmatch_eos {prev rest : List Char} {k : List Char → List Char → Bool}
    (hr : rest = []) (h : k prev rest = true) : mmatch .eos prev rest k = true := by
  subst hr
  show (List.isEmpty [] && k prev []) = true
  rw [h]
  rfl

theorem mmatch_wb {prev rest : List Char} {k : List Char → List Char → Bool}
    (hb : headWord prev ≠ headWord rest) (h : k prev rest = true) :
    mmatch .wb prev rest k = true := by
  show ((headWord prev != headWord rest) && k prev rest) = true
  rw [h, bne_iff_ne.mpr hb]
  rfl

theorem findMatch_of_here {r : Regex} {s : List Char}
    (h : mmatch r [] s (fun _ _ => true) = true) : findMatch r s = true := by
  cases s with
  | nil =>
      show (mmatch r [] [] (fun _ _ => true) || false) = true
      rw [h]
      rfl
  | cons c cs =>
      show (mmatch r [] (c :: cs) (fun _ _ => true) || findAux r [c] cs) = true
      rw [h]
      rfl

/-! ## Character class facts. -/

theorem digitC_word {c : Char} (h : digitC c = true) : isWordChar c = true := by
  simp only [digitC, Bool.and_eq_true, decide_eq_true_eq, Char.le_def] at h
  simp only [isWordChar, Char.isAlphanum, Char.isDigit, Char.isAlpha, Char.isUpper,
    Char.isLower, Bool.or_eq_true, decide_eq_true_eq, ge_iff_le]
  exact Or.inl (Or.inr (by simp only [Bool.and_eq_true, decide_eq_true_eq]; exact ⟨h.1, h.2⟩))

theorem rangeC19_digit {c : Char} (h : rangeC '1' '9' c = true) : digitC c = true := by
  simp only [rangeC, Bool.and_eq_true, decide_eq_true_eq] at h
  simp only [digitC, Bool.and_eq_true, decide_eq_true_eq]
  exact ⟨le_trans (by decide : ('0' : Char) ≤ '1') h.1, h.2⟩

theorem rangeC04_digit {c : Char} (h : rangeC '0' '4' c = true) : digitC c = true := by
  simp only [rangeC, Bool.and_eq_true, decide_eq_true_eq] at h
  simp only [digitC, Bool.and_eq_true, decide_eq_true_eq]
  exact ⟨h.1, le_trans h.2 (by decide : ('4' : Char) ≤ '9')⟩

theorem rangeC05_digit {c : Char} (h : rangeC '0' '5' c = true) : digitC c = true := by
  simp only [rangeC, Bool.and_eq_true, decide_eq_true_eq] at h
  simp only [digitC, Bool.and_eq_true, decide_eq_true_eq]
  exact ⟨h.1, le_trans h.2 (by decide : ('5' : Char) ≤ '9')⟩

theorem eqC_elim {a c : Char} (h : eqC a c = true) : c = a := by
  simpa [eqC] using h

/-! ## Facts about the octet and port languages. -/

theorem octet_headWord_append {s : List Char} (hs : octetChars s = true) (t : List Char) :
    headWord (s ++ t) = true := by
  rcases s with _ | ⟨c1, _ | ⟨c2, _ | ⟨c3, _ | ⟨c4, u⟩⟩⟩⟩
  · simp [octetChars] at hs
  · simp only [octetChars] at hs
    simpa [headWord] using digitC_word hs
  · simp only [octetChars, Bool.and_eq_true] at hs
    simpa [headWord] using digitC_word (rangeC19_digit hs.1)
  · simp only [octetChars, Bool.or_eq_true, Bool.and_eq_true] at hs
    have hd : digitC c1 = true := by
      rcases hs with (⟨⟨ha, _⟩, _⟩ | ⟨⟨ha, _⟩, _⟩) | ⟨⟨ha, _⟩, _⟩ <;>
        rw [eqC_elim ha] <;> decide
    simpa [headWord] using digitC_word hd
  · simp [octetChars] at hs

theorem octet_rev_headWord {s : List Char} (hs : octetChars s = true) (t : List Char) :
    headWord (s.reverse ++ t) = true := by
  rcases s with _ | ⟨c1, _ | ⟨c2, _ | ⟨c3, _ | ⟨c4, u⟩⟩⟩⟩
  · simp [octetChars] at hs
  · simp only [octetChars] at hs
    simpa [headWord] using digitC_word hs
  · simp only [octetChars, Bool.and_eq_true] at hs
    have hrev : ([c1, c2] : List Char).reverse = [c2, c1] := rfl
    rw [hrev]
    simpa [headWord] using digitC_word hs.2
  · simp only [octetChars, Bool.or_eq_true, Bool.and_eq_true] at hs
    have hd : digitC c3 = true := by
      rcases hs with (⟨⟨_, _⟩, hc⟩ | ⟨⟨_, _⟩, hc⟩) | ⟨⟨_, _⟩, hc⟩
      · exact hc
      · exact hc
      · exact rangeC05_digit hc
    have hrev : ([c1, c2, c3] : List Char).reverse = [c3, c2, c1] := rfl
    rw [hrev]
    simpa [headWord] using digitC_word hd
  · simp [octetChars] at hs

theorem port_headWord {p : List Char} (hp : portSuffix p = true) : headWord p = false := by
  rcases p with _ | ⟨c, ds⟩
  · rfl
  · simp only [portSuffix, Bool.and_eq_true] at hp
    obtain rfl := eqC_elim hp.1.1.1
    show isWordChar ':' = false
    decide

/-! ## The regex components accept the claimed language. -/

theorem octet_matches {s : List Char} (hs : octetChars s = true) :
    ∀ (prev rest : List Char) (k : List Char → List Char → Bool),
      k (s.reverse ++ prev) rest = true →
      mmatch octetRe prev (s ++ rest) k = true := by
  intro prev rest k hk
  rcases s with _ | ⟨c1, _ | ⟨c2, _ | ⟨c3, _ | ⟨c4, u⟩⟩⟩⟩
  · simp [octetChars] at hs
  · -- a single digit, via the empty alternative followed by `\d`
    simp only [octetChars] at hs
    simp only [List.cons_append, List.nil_append]
    unfold octetRe
    apply mmatch_alt_inr
    rw [mmatch_cat_eq]
    apply mmatch_alt_inr
    apply mmatch_alt_inr
    apply mmatch_alt_inr
    apply mmatch_eps
    apply mmatch_chr hs
    simpa using hk
  · -- two digits, via `[1-9]` followed by `\d`
    simp only [octetChars, Bool.and_eq_true] at hs
    simp only [List.cons_append, List.nil_append]
    unfold octetRe
    apply mmatch_alt_inr
    rw [mmatch_cat_eq]
    apply mmatch_alt_inr
    apply mmatch_alt_inr
    apply mmatch_alt_inl
    apply mmatch_chr hs.1
    apply mmatch_chr hs.2
    simpa using hk
  · -- three digits, via `25[0-5]`, `2[0-4]\d` or `1\d\d`
    simp only [octetChars, Bool.or_eq_true, Bool.and_eq_true] at hs
    simp only [List.cons_append, List.nil_append]
    unfold octetRe
    rcases hs with (⟨⟨ha, hb⟩, hc⟩ | ⟨⟨ha, hb⟩, hc⟩) | ⟨⟨ha, hb⟩, hc⟩
    · -- 1\d\d
      obtain rfl := eqC_elim ha
      apply mmatch_alt_inr
      rw [mmatch_cat_eq]
      apply mmatch_alt_inr
      apply mmatch_alt_inl
      rw [mmatch_cat_eq]
      apply mmatch_chr (by decide)
      apply mmatch_chr hb
      apply mmatch_chr hc
      simpa using hk
    · -- 2[0-4]\d
      obtain rfl := eqC_elim ha
      apply mmatch_alt_inr
      rw [mmatch_cat_eq]
      apply mmatch_alt_inl
      rw [mmatch_cat_eq]
      apply mmatch_chr (by decide)
      apply mmatch_chr hb
      apply mmatch_chr hc
      simpa using hk
    · -- 25[0-5]
      obtain rfl := eqC_elim ha
      obtain rfl := eqC_elim hb
      apply mmatch_alt_inl
      rw [mmatch_cat_eq]
      apply mmatch_chr (by decide)
      rw [mmatch_cat_eq]
      apply mmatch_chr (by decide)
      apply mmatch_chr hc
      simpa using hk
  · simp [octetChars] at hs

theorem ipv4Group_dot_matches {s rest prev : List Char} {k : List Char → List Char → Bool}
    (hs : octetChars s = true) (hrest : headWord rest = true)
    (hk : k ('.' :: (s.reverse ++ prev)) rest = true) :
    mmatch ipv4Group prev (s ++ '.' :: rest) k = true := by
  unfold ipv4Group
  rw [mmatch_cat_eq]
  apply octet_matches hs prev ('.' :: rest)
  rw [mmatch_cat_eq]
  apply mmatch_opt_take
  apply mmatch_chr (by decide : eqC '.' '.' = true)
  apply mmatch_wb
  · rw [hrest]
    show isWordChar '.' ≠ true
    decide
  · exact hk

theorem ipv4Group_last_matches {s rest prev : List Char} {k : List Char → List Char → Bool}
    (hs : octetChars s = true) (hrest : headWord rest = false)
    (hk : k (s.reverse ++ prev) rest = true) :
    mmatch ipv4Group prev (s ++ rest) k = true := by
  unfold ipv4Group
  rw [mmatch_cat_eq]
  apply octet_matches hs prev rest
  rw [mmatch_cat_eq]
  apply mmatch_opt_skip
  apply mmatch_wb
  · rw [hrest, octet_rev_headWord hs prev]
    simp
  · exact hk

theorem optN_digits (ds : List Char) :
    ∀ (n : Nat) (prev rest : List Char) (k : List Char → List Char → Bool),
      ds.length ≤ n → ds.all digitC = true → k (ds.reverse ++ prev) rest = true →
      mmatch (optN n (.chr digitC)) prev (ds ++ rest) k = true := by
  induction ds with
  | nil =>
      intro n prev rest k _ _ hk
      cases n with
      | zero => exact mmatch_eps (by simpa using hk)
      | succ m => exact mmatch_opt_skip _ (by simpa using hk)
  | cons d ds' ih =>
      intro n prev rest k hlen hall hk
      simp only [List.all_cons, Bool.and_eq_true] at hall
      cases n with
      | zero => simp at hlen
      | succ m =>
          simp only [List.cons_append]
          apply mmatch_opt_take
          rw [mmatch_cat_eq]
          apply mmatch_chr hall.1
          apply ih m (d :: prev) rest k (by simpa using hlen) hall.2
          simpa [List.append_assoc] using hk

theorem digits15_matches {ds rest prev : List Char} {k : List Char → List Char → Bool}
    (h1 : 1 ≤ ds.length) (h5 : ds.length ≤ 5) (hall : ds.all digitC = true)
    (hk : k (ds.reverse ++ prev) rest = true) :
    mmatch (repRange 1 5 (.chr digitC)) prev (ds ++ rest) k = true := by
  rcases ds with _ | ⟨d0, ds'⟩
  · simp at h1
  · simp only [List.all_cons, Bool.and_eq_true] at hall
    show mmatch (.cat (.cat (.chr digitC) .eps) (optN 4 (.chr digitC))) prev
      ((d0 :: ds') ++ rest) k = true
    simp only [List.cons_append]
    rw [mmatch_cat_eq, mmatch_cat_eq]
    apply mmatch_chr hall.1
    apply mmatch_eps
    apply optN_digits ds' 4 (d0 :: prev) rest k (by simpa using h5) hall.2
    simpa [List.append_assoc] using hk

theorem port_tail_matches {p : List Char} (prev : List Char) (hp : portSuffix p = true) :
    mmatch (.cat (.opt portRe) .eos) prev p (fun _ _ => true) = true := by
  rcases p with _ | ⟨c, ds⟩
  · rw [mmatch_cat_eq]
    apply mmatch_opt_skip
    exact mmatch_eos rfl rfl
  · simp only [portSuffix, Bool.and_eq_true, decide_eq_true_eq] at hp
    obtain ⟨⟨⟨hc, hlen1⟩, hlen5⟩, hall⟩ := hp
    rw [eqC_elim hc]
    rw [mmatch_cat_eq]
    apply mmatch_opt_take
    unfold portRe
    rw [mmatch_cat_eq]
    apply mmatch_chr (by decide : eqC ':' ':' = true)
    rw [show (ds : List Char) = ds ++ [] from (List.append_nil ds).symm]
    apply digits15_matches hlen1 hlen5 hall
    exact mmatch_eos rfl rfl

/-- C8 amended: every `Host` value that is a dotted IPv4 address with decimal
octets (each 0–255, canonically written), optionally followed by a `:port` of
one to five digits, is classified as numeric by `check_numeric_host`. -/
theorem numericHost_dotted_decimal (s1 s2 s3 s4 p : List Char)
    (h1 : octetChars s1 = true) (h2 : octetChars s2 = true)
    (h3 : octetChars s3 = true) (h4 : octetChars s4 = true)
    (hp : portSuffix p = true) :
    check_numeric_host
        (hostOnlyReq (s1 ++ '.' :: (s2 ++ '.' :: (s3 ++ '.' :: (s4 ++ p))))) =
      .ok true := by
  have hfind : findMatch reIpv4 (s1 ++ '.' :: (s2 ++ '.' :: (s3 ++ '.' :: (s4 ++ p)))) = true := by
    apply findMatch_of_here
    unfold reIpv4
    rw [mmatch_cat_eq]
    apply mmatch_bos rfl
    rw [show repN 4 ipv4Group =
      .cat ipv4Group (.cat ipv4Group (.cat ipv4Group (.cat ipv4Group .eps))) from rfl]
    rw [mmatch_cat_eq, mmatch_cat_eq]
    apply ipv4Group_dot_matches h1 (octet_headWord_append h2 _)
    rw [mmatch_cat_eq]
    apply ipv4Group_dot_matches h2 (octet_headWord_append h3 _)
    rw [mmatch_cat_eq]
    apply ipv4Group_dot_matches h3 (octet_headWord_append h4 _)
    rw [mmatch_cat_eq]
    apply ipv4Group_last_matches h4 (port_headWord hp)
    apply mmatch_eps
    exact port_tail_matches _ hp
  have hhdr : getHeader
      (hostOnlyReq (s1 ++ '.' :: (s2 ++ '.' :: (s3 ++ '.' :: (s4 ++ p))))) "Host".data =
      some (s1 ++ '.' :: (s2 ++ '.' :: (s3 ++ '.' :: (s4 ++ p)))) := rfl
  unfold check_numeric_host
  rw [hhdr]
  simp [hfind]

/-- C8 counterexample: a dotted IPv4 host whose octets are written in
hexadecimal (`0x`) form is classified as not numeric, contrary to the claim
that such hosts positively match. -/
theorem numericHost_hex_dotted_not_matched :
    check_numeric_host (hostOnlyReq "0x1.0x2.0x3.0x4".data) = .ok false := rfl

theorem numericHost_dotted_decimal_witness :
    octetChars "127".data = true ∧ octetChars "0".data = true ∧
    octetChars "1".data = true ∧ portSuffix ":80".data = true ∧
    check_numeric_host (hostOnlyReq
        ("127".data ++ '.' :: ("0".data ++ '.' :: ("0".data ++ '.' :: ("1".data ++ ":80".data))))) =
      .ok true :=
  ⟨by decide, by decide, by decide, by decide,
   numericHost_dotted_decimal "127".data "0".data "0".data "1".data ":80".data
     (by decide) (by decide) (by decide) (by decide) (by decide)⟩

end Bulwark
